import Mathlib

/-!
Verification of the AI-text-detector core (`main.py`).

The repository's core is `analyze_text_features` (feature extraction, scoring,
labeling) and `analyze_folder` (batch aggregation and summary statistics).
We embed those functions shallowly:

* numbers are modelled by exact rationals (`ℚ`) wherever the Python program
  computes rational values, and by exact reals (`ℝ`) where `np.std` introduces
  a square root; IEEE rounding of individual float operations is idealised
  to exact arithmetic, while the one observable non-finite float behaviour —
  `np.std(l)/np.mean(l)` producing NaN — is modelled explicitly by the
  `RFlt`/`QFlt` types below;
* the tokenizer (`nltk.sent_tokenize` / `nltk.word_tokenize`) and the
  readability score (`textstat.flesch_reading_ease`) are external
  collaborators and are passed in as an abstract `Tokenizer`;
* the file-discovery walk and the content reader are external collaborators;
  `analyze_folder` receives the discovered (path, content) pairs.
-/

namespace AIDetect

/-- A Python/numpy float that is either a finite real or NaN.  Infinities are
not modelled: the only division in the program is `np.std(l) / np.mean(l)`
over a list `l` of natural-number sentence lengths, and whenever the mean of
such a list is `0` every entry is `0`, so the standard deviation is also `0`
and the division is `0.0/0.0 = NaN`, never `x/0` with `x ≠ 0`
(see `varQ_eq_zero_of_meanQ_eq_zero` below). -/
inductive RFlt where
  | fin (x : ℝ) : RFlt
  | nan : RFlt

/-- A numpy float that is known to be rational when finite (means and
variances of integer data). -/
inductive QFlt where
  | fin (q : ℚ) : QFlt
  | nan : QFlt
deriving DecidableEq

/-- IEEE addition restricted to finite/NaN values: NaN propagates. -/
def RFlt.add : RFlt → RFlt → RFlt
  | .fin a, .fin b => .fin (a + b)
  | _, _ => .nan

/-- IEEE subtraction restricted to finite/NaN values: NaN propagates. -/
def RFlt.sub : RFlt → RFlt → RFlt
  | .fin a, .fin b => .fin (a - b)
  | _, _ => .nan

/-- IEEE multiplication restricted to finite/NaN values: NaN propagates
(in particular `0 * NaN = NaN`, as in IEEE 754). -/
def RFlt.mul : RFlt → RFlt → RFlt
  | .fin a, .fin b => .fin (a * b)
  | _, _ => .nan

/-- IEEE division restricted to the cases arising in this program:
`0/0 = NaN`, NaN propagates; a nonzero numerator over a zero denominator
(which would be an infinity) cannot arise, see the comment on `RFlt`. -/
noncomputable def RFlt.div : RFlt → RFlt → RFlt
  | .fin a, .fin b => if b = 0 then .nan else .fin (a / b)
  | _, _ => .nan

instance : Add RFlt := ⟨RFlt.add⟩
instance : Sub RFlt := ⟨RFlt.sub⟩
instance : Mul RFlt := ⟨RFlt.mul⟩

/-- View a rational-valued float as a general float. -/
def QFlt.toR : QFlt → RFlt
  | .fin q => .fin (q : ℝ)
  | .nan => .nan

/-- Python's comparison `x < c` on floats: False whenever `x` is NaN. -/
def QFlt.ltB : QFlt → ℚ → Bool
  | .fin q, c => decide (q < c)
  | .nan, _ => false

/-- Round-half-to-even to an integer, the rounding used by Python's built-in
`round` (idealised to exact rational arithmetic). -/
def roundHalfEven (q : ℚ) : ℤ :=
  if q - ⌊q⌋ < 1/2 then ⌊q⌋
  else if 1/2 < q - ⌊q⌋ then ⌊q⌋ + 1
  else if ⌊q⌋ % 2 = 0 then ⌊q⌋ else ⌊q⌋ + 1

/-- Python's `round(x, 2)`: round to two decimal places, half to even. -/
def round2 (q : ℚ) : ℚ := (roundHalfEven (q * 100) : ℚ) / 100

/-- Round-half-to-even on reals. -/
noncomputable def roundHalfEvenR (x : ℝ) : ℤ :=
  if x - ⌊x⌋ < 1/2 then ⌊x⌋
  else if 1/2 < x - ⌊x⌋ then ⌊x⌋ + 1
  else if ⌊x⌋ % 2 = 0 then ⌊x⌋ else ⌊x⌋ + 1

/-- Python's `round(x, 2)` on a possibly-NaN float (`round(nan, 2)` is NaN). -/
noncomputable def RFlt.round2 : RFlt → RFlt
  | .fin x => .fin ((roundHalfEvenR (x * 100) : ℝ) / 100)
  | .nan => .nan

/-! ## The Scorer over a FeatureVector (`main.py` lines 56–69)

The spec's §4.2 Scorer is a pure function of a FeatureVector.  At this level
all features are plain (finite) numbers, so we work in `ℚ`. -/

/-- A FeatureVector as in the spec's data model (§3); field values as the
extractor computes them, before any display rounding. -/
structure FeatureVector where
  text_length : ℕ
  sentence_count : ℕ
  lexical_diversity : ℚ
  burstiness : ℚ
  readability : ℚ
  repetition_ratio : ℚ
  perplexity_proxy : ℚ
deriving DecidableEq

/-- The composite score of `main.py` lines 56–61:
`(1 - ttr) * 0.3 + (1 - burstiness) * 0.2 + common_ratio * 0.2 +
(pseudo_perplexity < 100) * 0.3` (the Python bool multiplies as 0 or 1). -/
def composite (fv : FeatureVector) : ℚ :=
  (1 - fv.lexical_diversity) * 0.3 +
  (1 - fv.burstiness) * 0.2 +
  fv.repetition_ratio * 0.2 +
  (if fv.perplexity_proxy < 100 then (1 : ℚ) else 0) * 0.3

/-- `ai_score = round(score * 100, 2)` (`main.py` line 62). -/
def aiScore (fv : FeatureVector) : ℚ := round2 (composite fv * 100)

/-- The label of `main.py` lines 64–69, as a function of `ai_score`. -/
def classify (s : ℚ) : String :=
  if s < 40 then "人類撰寫"
  else if s < 70 then "模糊區（混合或修飾過）"
  else "高機率 AI 生成"

/-! ## String helpers

Python's `str.strip` / `str.lower` / `str.endswith` / `os.path.basename`,
modelled structurally over the character list of a `String` (whitespace is
idealised to `Char.isWhitespace`). -/

/-- Python's `text.strip()`. -/
def pyStrip (s : String) : String :=
  ⟨((s.data.dropWhile Char.isWhitespace).reverse.dropWhile Char.isWhitespace).reverse⟩

/-- Python's `text.lower()`. -/
def pyLower (s : String) : String := ⟨s.data.map Char.toLower⟩

/-- Whether the first list leads the second (used for suffix and substring
checks on reversed/partial character lists). -/
def leadsWith : List Char → List Char → Bool
  | [], _ => true
  | _ :: _, [] => false
  | a :: as, b :: bs => (a = b) && leadsWith as bs

/-- Python's `s.endswith(suf)`. -/
def strEndsWith (s suf : String) : Bool := leadsWith suf.data.reverse s.data.reverse

/-- Substring containment, as used by pandas `Series.str.contains` for a
pattern with no regex metacharacters. -/
def strContains (s pat : String) : Bool := go pat.data s.data
where
  go (pat : List Char) : List Char → Bool
    | [] => leadsWith pat []
    | c :: rest => leadsWith pat (c :: rest) || go pat rest

/-- `os.path.basename`: the part of the path after the last separator. -/
def basename (p : String) : String :=
  ⟨((p.data.reverse).takeWhile (fun c => c ≠ '/')).reverse⟩

/-! ## numpy statistics over the sentence-length list -/

/-- Arithmetic mean of a list of natural counts, as a rational
(meaningful only for nonempty lists; `npMean` guards the empty case). -/
def meanQ (l : List ℕ) : ℚ := (l.sum : ℚ) / (l.length : ℚ)

/-- Population variance `Σ (x - mean)² / n`, the formula `np.var` computes
(meaningful only for nonempty lists; `npVar` guards the empty case). -/
def varQ (l : List ℕ) : ℚ :=
  ((l.map (fun (x : ℕ) => ((x : ℚ) - meanQ l) ^ 2)).sum) / (l.length : ℚ)

/-- `np.mean`: NaN on an empty list, otherwise the arithmetic mean. -/
def npMean (l : List ℕ) : QFlt := if l = [] then .nan else .fin (meanQ l)

/-- `np.var`: NaN on an empty list, otherwise the population variance. -/
def npVar (l : List ℕ) : QFlt := if l = [] then .nan else .fin (varQ l)

/-- `np.std`: the square root of the population variance. -/
noncomputable def npStd (l : List ℕ) : RFlt :=
  match npVar l with
  | .fin v => .fin (Real.sqrt v)
  | .nan => .nan

/-- `Counter(words).most_common(1)[0][1]`: the multiplicity of the most
frequent token (`words` is nonempty at the call site; on `[]` the Python
expression would raise, and this returns the junk value 0). -/
def mostCommonCount (ws : List String) : ℕ :=
  (ws.map (fun w => ws.count w)).foldr max 0

/-! ## The Feature Extractor (`analyze_text_features`, lines 35–81)

The tokenizer and the readability scorer are external collaborators
(`nltk`, `textstat`); they are passed in abstractly. -/

/-- The external collaborators consumed by the extractor. -/
structure Tokenizer where
  sent_tokenize : String → List String
  word_tokenize : String → List String
  flesch_reading_ease : String → ℚ

/-- Line 45: `ttr = len(set(words)) / len(words)`. -/
def ttrOf (words : List String) : ℚ := (words.toFinset.card : ℚ) / (words.length : ℚ)

/-- Line 47: `sent_lengths = [len(word_tokenize(s)) for s in sentences]`. -/
def sentLens (tok : Tokenizer) (text : String) : List ℕ :=
  (tok.sent_tokenize text).map (fun s => (tok.word_tokenize s).length)

/-- Line 48: `burstiness = np.std(sent_lengths) / np.mean(sent_lengths)`
(unguarded: NaN when the list is empty or its mean is 0). -/
noncomputable def burstinessOf (sl : List ℕ) : RFlt :=
  RFlt.div (npStd sl) (npMean sl).toR

/-- Line 52: `common_ratio = Counter(words).most_common(1)[0][1] / len(words)`. -/
def commonRatioOf (words : List String) : ℚ :=
  (mostCommonCount words : ℚ) / (words.length : ℚ)

/-- Lines 56–61: the composite score.  The terms other than the burstiness
one are finite rationals; the burstiness term can be NaN, which IEEE
arithmetic propagates through the sum. -/
noncomputable def scoreOf (ttr : ℚ) (burstiness : RFlt) (common_ratio : ℚ)
    (pseudo_perplexity : QFlt) : RFlt :=
  RFlt.fin (((1 - ttr) * 0.3 : ℚ) : ℝ) +
    (RFlt.fin 1 - burstiness) * RFlt.fin ((0.2 : ℚ) : ℝ) +
    RFlt.fin ((common_ratio * 0.2 : ℚ) : ℝ) +
    RFlt.fin ((((if pseudo_perplexity.ltB 100 then (1 : ℚ) else 0)) * 0.3 : ℚ) : ℝ)

/-- Lines 64–69, on a float score: both comparisons are False for NaN, so a
NaN score falls through to the final label. -/
noncomputable def classifyF : RFlt → String
  | .fin x =>
      if x < 40 then "人類撰寫"
      else if x < 70 then "模糊區（混合或修飾過）"
      else "高機率 AI 生成"
  | .nan => "高機率 AI 生成"

/-- Rounding to 3 decimal places (Python `round(x, 3)`), for display fields. -/
def round3 (q : ℚ) : ℚ := (roundHalfEven (q * 1000) : ℚ) / 1000

/-- `round(x, 3)` on a possibly-NaN float. -/
noncomputable def RFlt.round3 : RFlt → RFlt
  | .fin x => .fin ((roundHalfEvenR (x * 1000) : ℝ) / 1000)
  | .nan => .nan

/-- `round(x, 2)` on a rational-valued float. -/
def QFlt.round2 : QFlt → QFlt
  | .fin q => .fin (AIDetect.round2 q)
  | .nan => .nan

/-- The record returned by `analyze_text_features` (lines 71–81); field
comments give the dictionary keys.  Display fields carry the rounding the
dictionary applies. -/
structure Features where
  text_length : ℕ          -- "文字長度": len(text)
  sentence_count : ℕ       -- "句子數": len(sentences)
  ttr : ℚ                  -- "詞彙多樣性": round(ttr, 3)
  burstiness : RFlt        -- "句長變異": round(burstiness, 3)
  readability : ℚ          -- "可讀性": round(readability, 2)
  common_ratio : ℚ         -- "重複率": round(common_ratio, 3)
  pseudo_perplexity : QFlt -- "困惑度代理": round(pseudo_perplexity, 2)
  ai_score : RFlt          -- "AI可能性分數"
  result : String          -- "分析結果"

/-- `analyze_text_features` (lines 35–81). -/
noncomputable def analyze_text_features (tok : Tokenizer) (text : String) :
    Option Features :=
  if text = "" ∨ (pyStrip text).length < 50 then none
  else
    let sentences := tok.sent_tokenize text
    let words := tok.word_tokenize (pyLower text)
    if words = [] then none
    else
      let ttr := ttrOf words
      let sl := sentLens tok text
      let burstiness := burstinessOf sl
      let readability := tok.flesch_reading_ease text
      let common_ratio := commonRatioOf words
      let pseudo_perplexity := npVar sl
      let score := scoreOf ttr burstiness common_ratio pseudo_perplexity
      let ai_score := RFlt.round2 (score * RFlt.fin 100)
      some
        { text_length := text.length
          sentence_count := sentences.length
          ttr := round3 ttr
          burstiness := burstiness.round3
          readability := round2 readability
          common_ratio := round3 common_ratio
          pseudo_perplexity := pseudo_perplexity.round2
          ai_score := ai_score
          result := classifyF ai_score }

/-! ## The Batch Aggregator (`analyze_folder`, lines 98–136)

File discovery and content reading are external collaborators; the input is
the ordered list of discovered (path, content) pairs.  The GUI dialogs,
Excel writing and chart rendering are presentation-layer side effects with
no influence on the computed records and summary. -/

/-- A discovered file: its path and the text the content reader yields. -/
structure SrcFile where
  path : String
  content : String
deriving DecidableEq

/-- Line 103: `f.endswith((".txt", ".docx"))`. -/
def eligibleFile (p : String) : Bool := strEndsWith p ".txt" || strEndsWith p ".docx"

/-- One per-file record: the analysis dictionary plus `"檔案名稱"`
(line 114: `os.path.basename(file)`). -/
structure DocRecord where
  name : String
  analysis : Features

/-- Lines 111–115 for a single file: analyze the content, tag with the
display name; `None` analyses produce no record. -/
noncomputable def recordOf (tok : Tokenizer) (f : SrcFile) : Option DocRecord :=
  (analyze_text_features tok f.content).map
    (fun a => { name := basename f.path, analysis := a })

/-- Lines 100–115: the record list, in discovery order, of the files passing
the extension filter. -/
noncomputable def recordsOf (tok : Tokenizer) (files : List SrcFile) :
    List DocRecord :=
  (files.filter (fun f => eligibleFile f.path)).filterMap (recordOf tok)

/-- A finite float as an optional real (`NaN ↦ none`), for the pandas
`skipna` reductions. -/
def RFlt.toOptR : RFlt → Option ℝ
  | .fin x => some x
  | .nan => none

/-- pandas `Series.mean()`: mean of the non-NaN entries, NaN if none. -/
noncomputable def pdMean (scores : List RFlt) : RFlt :=
  match scores.filterMap RFlt.toOptR with
  | [] => .nan
  | x :: xs => .fin ((x :: xs).sum / ((x :: xs).length : ℝ))

/-- pandas `Series.max()`: maximum of the non-NaN entries, NaN if none. -/
noncomputable def pdMax (scores : List RFlt) : RFlt :=
  match scores.filterMap RFlt.toOptR with
  | [] => .nan
  | x :: xs => .fin (xs.foldl max x)

/-- pandas `Series.min()`: minimum of the non-NaN entries, NaN if none. -/
noncomputable def pdMin (scores : List RFlt) : RFlt :=
  match scores.filterMap RFlt.toOptR with
  | [] => .nan
  | x :: xs => .fin (xs.foldl min x)

/-- The summary dictionary (lines 128–136); field comments give the keys.
Note line 134 counts the ambiguous label by the substring `"模糊"`
(`str.contains`), while the other two counts compare by equality. -/
structure Summary where
  total : ℕ        -- "分析文件總數": len(df)
  avg : RFlt       -- "平均 AI 分數": round(df[score].mean(), 2)
  high : RFlt      -- "最高分": df[score].max()
  low : RFlt       -- "最低分": df[score].min()
  ai_count : ℕ     -- "高機率 AI 數": sum(df[result] == "高機率 AI 生成")
  fuzzy_count : ℕ  -- "模糊區數": sum(df[result].str.contains("模糊"))
  human_count : ℕ  -- "明顯人類撰寫數": sum(df[result] == "人類撰寫")

/-- Lines 128–136: the summary statistics over the record list. -/
noncomputable def summarize (records : List DocRecord) : Summary :=
  let scores := records.map (fun r => r.analysis.ai_score)
  { total := records.length
    avg := (pdMean scores).round2
    high := pdMax scores
    low := pdMin scores
    ai_count := (records.filter (fun r => r.analysis.result == "高機率 AI 生成")).length
    fuzzy_count := (records.filter (fun r => strContains r.analysis.result "模糊")).length
    human_count := (records.filter (fun r => r.analysis.result == "人類撰寫")).length }

/-- The observable outcome of `analyze_folder`: one of the two informational
empty signals (with the message shown), or the records and summary. -/
inductive FolderResult where
  | inputEmpty (msg : String) : FolderResult    -- line 107 warning, then return
  | contentEmpty (msg : String) : FolderResult  -- line 118 info, then return
  | report (records : List DocRecord) (summary : Summary) : FolderResult

/-- `analyze_folder` (lines 98–136), up to the computed records and summary;
serialization of both to Excel/chart is presentation. -/
noncomputable def analyze_folder (tok : Tokenizer) (files : List SrcFile) :
    FolderResult :=
  if (files.filter (fun f => eligibleFile f.path)).isEmpty then
    .inputEmpty "找不到 .txt 或 .docx 檔案"
  else if (recordsOf tok files).isEmpty then
    .contentEmpty "沒有可分析的內容。"
  else
    .report (recordsOf tok files) (summarize (recordsOf tok files))

/-! ## Reference definitions (from the spec's words, for comparison)

These restate the spec's feature definitions in an independent form; the
claims compare the embedded computations against them. -/

/-- Reference lexical diversity: the fraction of word tokens that are
distinct, with the distinct tokens counted by `dedup`. -/
def refLexicalDiversity (words : List String) : ℚ :=
  (words.dedup.length : ℚ) / (words.length : ℚ)

/-- Reference population variance, via the second-moment formula
`E[x²] - (E[x])²`. -/
def refVariance (l : List ℕ) : ℚ :=
  ((l.map (fun (x : ℕ) => (x : ℚ) ^ 2)).sum) / (l.length : ℚ) - meanQ l ^ 2

/-- Reference count of the single most frequent word token: the supremum of
the multiplicities over the distinct tokens. -/
def refTopCount (words : List String) : ℕ :=
  words.toFinset.sup (fun w => words.count w)

/-! ## Concrete fixtures used by the witnesses -/

/-- A 50-character text (the minimal length passing the precondition). -/
def textLong : String := "aaaaaaaaaaaaaaaaaaaaaaaaaaaaaaaaaaaaaaaaaaaaaaaaaa"

/-- A second 50-character text. -/
def textLongC : String := "cccccccccccccccccccccccccccccccccccccccccccccccccc"

/-- A text below the 50-character threshold. -/
def textShort : String := "hi"

/-- A trivial tokenizer: one sentence, one word token. -/
def tokSimple : Tokenizer := ⟨fun s => [s], fun s => [s], fun _ => 0⟩

/-- A tokenizer producing two sentences of two tokens each. -/
def tokPair : Tokenizer := ⟨fun s => [s, s], fun s => [s, "w"], fun _ => 0⟩

/-- A degenerate tokenizer: the single sentence `"?"` tokenizes to no word
tokens, while the document itself still has a word token. -/
def tokDegen : Tokenizer :=
  ⟨fun _ => ["?"], fun s => if s = "?" then [] else ["w"], fun _ => 0⟩

/-- Discovered files for the aggregation-order witness. -/
def fileA : SrcFile := ⟨"docs/a.txt", textLong⟩

/-- A discovered file whose content is too short to analyze. -/
def fileB : SrcFile := ⟨"docs/b.txt", textShort⟩

/-- A third analyzable discovered file (a `.docx`). -/
def fileC : SrcFile := ⟨"docs/c.docx", textLongC⟩

/-- A file rejected by the extension filter. -/
def filePdf : SrcFile := ⟨"docs/x.pdf", textLong⟩

/-- The record produced for `fileA`. -/
noncomputable def recA : DocRecord := (recordOf tokSimple fileA).get (by rfl)

/-- The record produced for `fileC`. -/
noncomputable def recC : DocRecord := (recordOf tokSimple fileC).get (by rfl)

/-- A record labelled human-authored with score 10, for the summary witness. -/
noncomputable def recH : DocRecord :=
  ⟨"h.txt", ⟨100, 1, 0, .fin 0, 0, 0, .fin 0, .fin 10, "人類撰寫"⟩⟩

/-- A record labelled ambiguous with score 50, for the summary witness. -/
noncomputable def recM : DocRecord :=
  ⟨"m.txt", ⟨100, 1, 0, .fin 0, 0, 0, .fin 0, .fin 50, "模糊區（混合或修飾過）"⟩⟩

/-- A record labelled high-probability AI with score 90, for the summary
witness. -/
noncomputable def recAI : DocRecord :=
  ⟨"a.txt", ⟨100, 1, 0, .fin 0, 0, 0, .fin 0, .fin 90, "高機率 AI 生成"⟩⟩

/-! ## Helper lemmas -/

/-- The number of distinct elements of a list is the length of its `dedup`. -/
lemma list_toFinset_card {α : Type*} [DecidableEq α] (l : List α) :
    l.toFinset.card = l.dedup.length := by
  rw [Finset.card, List.toFinset_val, Multiset.coe_card]

/-- A fold of `max` over all (possibly repeated) values of `f` equals the
supremum of `f` over the distinct elements. -/
lemma foldr_max_eq_sup {α : Type*} [DecidableEq α] (f : α → ℕ) :
    ∀ l : List α, (l.map f).foldr max 0 = l.toFinset.sup f
  | [] => rfl
  | a :: t => by
    simp only [List.map_cons, List.foldr_cons, List.toFinset_cons, Finset.sup_insert,
      foldr_max_eq_sup f t]

/-- Expansion of the sum of squared deviations. -/
lemma sum_sq_expand (μ : ℚ) :
    ∀ l : List ℕ, (l.map (fun (x : ℕ) => ((x : ℚ) - μ) ^ 2)).sum =
      (l.map (fun (x : ℕ) => (x : ℚ) ^ 2)).sum - 2 * μ * (l.sum : ℚ) +
        (l.length : ℚ) * μ ^ 2
  | [] => by simp
  | a :: t => by
    simp only [List.map_cons, List.sum_cons, List.length_cons, sum_sq_expand μ t,
      Nat.cast_add, Nat.cast_one]
    ring

/-- The two standard forms of the population variance agree. -/
lemma varQ_eq_refVariance (l : List ℕ) (h : l ≠ []) : varQ l = refVariance l := by
  have hn : (l.length : ℚ) ≠ 0 := by
    simpa using List.length_pos.mpr h |>.ne'
  unfold varQ refVariance meanQ
  rw [sum_sq_expand]
  field_simp
  ring

/-- A list of natural counts with mean 0 has variance 0 (all entries are 0),
so `np.std/np.mean` at a zero mean is the IEEE `0.0/0.0 = NaN`, justifying
the shape of `RFlt.div`. -/
lemma varQ_zero_of_mean_zero (l : List ℕ) (h : meanQ l = 0) : varQ l = 0 := by
  rcases eq_or_ne l [] with rfl | hne
  · simp [varQ]
  · have hn : (l.length : ℚ) ≠ 0 := by
      simpa using List.length_pos.mpr hne |>.ne'
    have hsum : (l.sum : ℚ) = 0 := by
      unfold meanQ at h
      rcases div_eq_zero_iff.mp h with h' | h'
      · exact h'
      · exact absurd h' hn
    have hall : ∀ x ∈ l, x = 0 :=
      List.sum_eq_zero_iff.mp (Nat.cast_eq_zero.mp hsum)
    have hz : ∀ m : List ℕ, (∀ x ∈ m, x = 0) →
        (m.map (fun (x : ℕ) => ((x : ℚ) - 0) ^ 2)).sum = 0 := by
      intro m hm
      induction m with
      | nil => simp
      | cons a t ih =>
        simp only [List.map_cons, List.sum_cons]
        rw [hm a (by simp), ih (fun x hx => hm x (by simp [hx]))]
        norm_num
    unfold varQ
    rw [h, hz l hall, zero_div]

/-- Stripping the `RFlt.fin` wrappers recovers the underlying list. -/
lemma filterMap_toOptR_map_fin :
    ∀ xs : List ℝ, (xs.map RFlt.fin).filterMap RFlt.toOptR = xs
  | [] => rfl
  | x :: t => by
    simp only [List.map_cons, List.filterMap_cons, RFlt.toOptR,
      filterMap_toOptR_map_fin t]

/-- A left fold of `max` computes a maximum: the result is the seed or a
list element, is at least the seed, and bounds every element. -/
lemma foldl_max_spec {α : Type*} [LinearOrder α] :
    ∀ (xs : List α) (x : α), (xs.foldl max x = x ∨ xs.foldl max x ∈ xs) ∧
      x ≤ xs.foldl max x ∧ ∀ y ∈ xs, y ≤ xs.foldl max x
  | [], x => ⟨Or.inl rfl, le_refl x, by simp⟩
  | a :: t, x => by
    obtain ⟨hmem, hle, hall⟩ := foldl_max_spec t (max x a)
    refine ⟨?_, le_trans (le_max_left x a) hle, ?_⟩
    · rcases hmem with h | h
      · rcases max_choice x a with hc | hc
        · exact Or.inl (by rw [List.foldl_cons, h, hc])
        · refine Or.inr ?_
          rw [List.foldl_cons, h, hc]
          exact List.mem_cons_self a t
      · refine Or.inr ?_
        rw [List.foldl_cons]
        exact List.mem_cons_of_mem a h
    · intro y hy
      rcases List.mem_cons.mp hy with rfl | hy'
      · exact le_trans (le_max_right x y) hle
      · exact hall y hy'

/-- A left fold of `min` computes a minimum. -/
lemma foldl_min_spec {α : Type*} [LinearOrder α] :
    ∀ (xs : List α) (x : α), (xs.foldl min x = x ∨ xs.foldl min x ∈ xs) ∧
      xs.foldl min x ≤ x ∧ ∀ y ∈ xs, xs.foldl min x ≤ y
  | [], x => ⟨Or.inl rfl, le_refl x, by simp⟩
  | a :: t, x => by
    obtain ⟨hmem, hle, hall⟩ := foldl_min_spec t (min x a)
    refine ⟨?_, le_trans hle (min_le_left x a), ?_⟩
    · rcases hmem with h | h
      · rcases min_choice x a with hc | hc
        · exact Or.inl (by rw [List.foldl_cons, h, hc])
        · refine Or.inr ?_
          rw [List.foldl_cons, h, hc]
          exact List.mem_cons_self a t
      · refine Or.inr ?_
        rw [List.foldl_cons]
        exact List.mem_cons_of_mem a h
    · intro y hy
      rcases List.mem_cons.mp hy with rfl | hy'
      · exact le_trans hle (min_le_right x y)
      · exact hall y hy'

/-- Round-half-to-even never rounds further up than the ceiling. -/
lemma roundHalfEven_le_ceil (q : ℚ) : roundHalfEven q ≤ ⌈q⌉ := by
  unfold roundHalfEven
  split_ifs with h1 h2 h3
  · exact Int.floor_le_ceil q
  · have hlt : (⌊q⌋ : ℚ) < q := by linarith
    have := Int.lt_ceil.mpr hlt
    omega
  · exact Int.floor_le_ceil q
  · have hlt : (⌊q⌋ : ℚ) < q := by linarith
    have := Int.lt_ceil.mpr hlt
    omega

/-- Round-half-to-even never rounds further down than the floor. -/
lemma floor_le_roundHalfEven (q : ℚ) : ⌊q⌋ ≤ roundHalfEven q := by
  unfold roundHalfEven
  split_ifs <;> omega

/-!  ## The claims -/

/-- C1: for every FeatureVector the scorer computes
`composite = 0.30*(1 - lexical_diversity) + 0.20*(1 - burstiness) +
0.20*repetition_ratio + 0.30*indicator(perplexity_proxy < 100)` and
`ai_score = round(composite * 100, 2)`; the indicator term contributes
exactly 0.30 when `perplexity_proxy < 100` and 0 otherwise. -/
theorem claim_C1 (fv : FeatureVector) :
    composite fv =
      0.30 * (1 - fv.lexical_diversity) + 0.20 * (1 - fv.burstiness) +
        0.20 * fv.repetition_ratio +
        0.30 * (if fv.perplexity_proxy < 100 then (1 : ℚ) else 0) ∧
    aiScore fv = round2 (composite fv * 100) ∧
    0.30 * (if fv.perplexity_proxy < 100 then (1 : ℚ) else 0) =
      (if fv.perplexity_proxy < 100 then (0.30 : ℚ) else 0) := by
  refine ⟨?_, rfl, ?_⟩
  · unfold composite
    split_ifs <;> ring
  · split_ifs <;> ring

/-- C2: on `[0, 100]` the label is a total, non-overlapping function of
`ai_score` with closed-open boundaries: `[0, 40)` is labelled human-authored,
`[40, 70)` ambiguous, `[70, 100]` high-probability AI; in particular 39.99 is
human-authored, 40.00 ambiguous, and 70.00 high-probability AI. -/
theorem claim_C2 :
    (∀ s : ℚ, 0 ≤ s → s ≤ 100 →
      (classify s = "人類撰寫" ↔ 0 ≤ s ∧ s < 40) ∧
      (classify s = "模糊區（混合或修飾過）" ↔ 40 ≤ s ∧ s < 70) ∧
      (classify s = "高機率 AI 生成" ↔ 70 ≤ s ∧ s ≤ 100)) ∧
    classify 39.99 = "人類撰寫" ∧
    classify 40 = "模糊區（混合或修飾過）" ∧
    classify 70 = "高機率 AI 生成" := by
  refine ⟨fun s h0 h100 => ?_, by norm_num [classify], by norm_num [classify],
    by norm_num [classify]⟩
  unfold classify
  split_ifs with ha hb
  · exact ⟨⟨fun _ => ⟨h0, ha⟩, fun _ => rfl⟩,
      ⟨fun h => absurd h (by decide), fun h => absurd ha (by linarith [h.1])⟩,
      ⟨fun h => absurd h (by decide), fun h => absurd ha (by linarith [h.1])⟩⟩
  · exact ⟨⟨fun h => absurd h (by decide), fun h => absurd h.2 ha⟩,
      ⟨fun _ => ⟨by linarith [not_lt.mp ha], hb⟩, fun _ => rfl⟩,
      ⟨fun h => absurd h (by decide), fun h => absurd hb (by linarith [h.1])⟩⟩
  · exact ⟨⟨fun h => absurd h (by decide), fun h => absurd h.2 ha⟩,
      ⟨fun h => absurd h (by decide), fun h => absurd h.2 hb⟩,
      ⟨fun _ => ⟨not_lt.mp hb, h100⟩, fun _ => rfl⟩⟩

/-- C2 witness: the boundary facts instantiated at 40. -/
theorem claim_C2_witness :
    (0 : ℚ) ≤ 40 ∧ (40 : ℚ) ≤ 100 ∧
      (classify 40 = "模糊區（混合或修飾過）" ↔ (40 : ℚ) ≤ 40 ∧ (40 : ℚ) < 70) :=
  ⟨by norm_num, by norm_num, (claim_C2.1 40 (by norm_num) (by norm_num)).2.1⟩

/-- C6: the advertised bound `0 ≤ ai_score ≤ 100` fails for some
FeatureVector: burstiness is unclamped, a FeatureVector with burstiness
above 1 makes the `(1 - burstiness)` term negative, and the resulting
`ai_score` can leave `[0, 100]`. -/
theorem claim_C6 :
    ∃ fv : FeatureVector, 1 < fv.burstiness ∧
      (1 - fv.burstiness) * 0.2 < 0 ∧
      (aiScore fv < 0 ∨ 100 < aiScore fv) := by
  refine ⟨⟨0, 0, 1, 10, 0, 1/2, 100⟩, by norm_num, by norm_num, Or.inl ?_⟩
  norm_num [aiScore, composite, round2, roundHalfEven]

/-- C10: for every FeatureVector in the ranges the extractor can actually
produce (`lexical_diversity ∈ (0,1]`, `repetition_ratio ∈ (0,1]`,
`burstiness ≥ 0`, `perplexity_proxy ≥ 0`) the composite is at most 1 and
hence `ai_score ≤ 100`: only the lower end of `[0, 100]` can be violated. -/
theorem claim_C10 (fv : FeatureVector)
    (h1 : 0 < fv.lexical_diversity) (h2 : fv.lexical_diversity ≤ 1)
    (h3 : 0 < fv.repetition_ratio) (h4 : fv.repetition_ratio ≤ 1)
    (h5 : 0 ≤ fv.burstiness) (h6 : 0 ≤ fv.perplexity_proxy) :
    composite fv ≤ 1 ∧ aiScore fv ≤ 100 := by
  have hc : composite fv ≤ 1 := by
    unfold composite
    split_ifs <;> nlinarith
  refine ⟨hc, ?_⟩
  unfold aiScore round2
  have hle : composite fv * 100 * 100 ≤ 10000 := by nlinarith
  have hup : roundHalfEven (composite fv * 100 * 100) ≤ 10000 := by
    have hr := roundHalfEven_le_ceil (composite fv * 100 * 100)
    have hc2 : ⌈composite fv * 100 * 100⌉ ≤ 10000 :=
      Int.ceil_le.mpr (by exact_mod_cast hle)
    omega
  have hq : (roundHalfEven (composite fv * 100 * 100) : ℚ) ≤ 10000 := by
    exact_mod_cast hup
  linarith

/-- C10 witness: a FeatureVector with diversity 1, repetition 1, burstiness
0 and perplexity proxy 0 satisfies the bounds (its score is 70). -/
theorem claim_C10_witness :
    (0 : ℚ) < 1 ∧ (1 : ℚ) ≤ 1 ∧ (0 : ℚ) ≤ 0 ∧
      (composite ⟨0, 0, 1, 0, 0, 1, 0⟩ ≤ 1 ∧ aiScore ⟨0, 0, 1, 0, 0, 1, 0⟩ ≤ 100) :=
  ⟨by norm_num, by norm_num, by norm_num,
    claim_C10 ⟨0, 0, 1, 0, 0, 1, 0⟩ (by norm_num) (by norm_num) (by norm_num)
      (by norm_num) (by norm_num) (by norm_num)⟩

/-- Auxiliary: `np.std` on a nonempty list is the square root of the
population variance. -/
lemma npStd_eq (l : List ℕ) (h : l ≠ []) : npStd l = RFlt.fin (Real.sqrt (varQ l)) := by
  unfold npStd npVar
  rw [if_neg h]

/-- C3: the extractor returns NoResult (`none`) exactly on empty input,
input of trimmed length below 50, or input whose word-token sequence is
empty; on all other inputs it returns a FeatureVector. -/
theorem claim_C3 (tok : Tokenizer) (text : String) :
    ((text = "" ∨ (pyStrip text).length < 50 ∨ tok.word_tokenize (pyLower text) = []) →
      analyze_text_features tok text = none) ∧
    (50 ≤ (pyStrip text).length → tok.word_tokenize (pyLower text) ≠ [] →
      ∃ fv, analyze_text_features tok text = some fv) := by
  constructor
  · rintro (h | h | h)
    · simp [analyze_text_features, h]
    · simp [analyze_text_features, h]
    · simp [analyze_text_features, h]
  · intro h50 hw
    have hne : text ≠ "" := by
      intro h
      rw [h] at h50
      simp [pyStrip] at h50
    unfold analyze_text_features
    rw [if_neg (by push_neg; exact ⟨hne, h50⟩)]
    dsimp only
    rw [if_neg hw]
    exact ⟨_, rfl⟩

/-- C3 witness: a 2-character text is rejected; a 50-character text with a
nonempty token sequence is analyzed. -/
theorem claim_C3_witness :
    ((pyStrip textShort).length < 50 ∧ analyze_text_features tokSimple textShort = none) ∧
    (50 ≤ (pyStrip textLong).length ∧ tokSimple.word_tokenize (pyLower textLong) ≠ [] ∧
      ∃ fv, analyze_text_features tokSimple textLong = some fv) :=
  ⟨⟨by decide, (claim_C3 tokSimple textShort).1 (Or.inr (Or.inl (by decide)))⟩,
   ⟨by decide, by decide, (claim_C3 tokSimple textLong).2 (by decide) (by decide)⟩⟩

/-- C5 (amended): when the mean per-sentence token count is 0 on an input
that passes the preconditions, the code does NOT guard the division:
burstiness is the float NaN (IEEE `0.0/0.0`), not the fallback 0; no
exception is raised — the extractor still returns a FeatureVector carrying
the NaN. -/
theorem claim_C5 (tok : Tokenizer) (text : String) (fv : Features)
    (h : analyze_text_features tok text = some fv)
    (hm : npMean (sentLens tok text) = QFlt.fin 0) :
    fv.burstiness = RFlt.nan := by
  unfold analyze_text_features at h
  by_cases h1 : text = "" ∨ (pyStrip text).length < 50
  · rw [if_pos h1] at h
    exact absurd h (by simp)
  · rw [if_neg h1] at h
    dsimp only at h
    by_cases h2 : tok.word_tokenize (pyLower text) = []
    · rw [if_pos h2] at h
      exact absurd h (by simp)
    · rw [if_neg h2] at h
      have hfv := (Option.some.injEq _ _).mp h.symm
      have hsl : sentLens tok text ≠ [] := by
        intro hnil
        unfold npMean at hm
        rw [if_pos hnil] at hm
        exact absurd hm (by simp)
      have hmean : meanQ (sentLens tok text) = 0 := by
        unfold npMean at hm
        rw [if_neg hsl] at hm
        exact (QFlt.fin.injEq _ _).mp hm
      rw [hfv]
      show (burstinessOf (sentLens tok text)).round3 = RFlt.nan
      unfold burstinessOf
      rw [npStd_eq _ hsl]
      unfold npMean
      rw [if_neg hsl, hmean]
      simp [QFlt.toR, RFlt.div, RFlt.round3]

/-- C5 counterexample to the claim as stated: a degenerate tokenization
(one sentence with no word tokens, while the document has a word token)
passes the preconditions with zero mean sentence length, and the produced
burstiness is NaN — not the claimed fallback value 0. -/
theorem claim_C5_counterexample :
    npMean (sentLens tokDegen textLong) = QFlt.fin 0 ∧
    (analyze_text_features tokDegen textLong).isSome = true ∧
    (analyze_text_features tokDegen textLong).map (fun fv => fv.burstiness) =
      some RFlt.nan ∧
    (analyze_text_features tokDegen textLong).map (fun fv => fv.burstiness) ≠
      some (RFlt.fin 0) := by
  have hsl : sentLens tokDegen textLong = [0] := by decide
  have hm : npMean (sentLens tokDegen textLong) = QFlt.fin 0 := by
    rw [hsl]
    simp [npMean, meanQ]
  have hbb : (burstinessOf (sentLens tokDegen textLong)).round3 = RFlt.nan := by
    unfold burstinessOf
    rw [npStd_eq _ (by rw [hsl]; simp)]
    unfold npMean
    rw [if_neg (by rw [hsl]; simp), hsl]
    have hmz : meanQ [0] = 0 := by simp [meanQ]
    rw [hmz]
    simp [QFlt.toR, RFlt.div, RFlt.round3]
  have hb : (analyze_text_features tokDegen textLong).map (fun fv => fv.burstiness) =
      some RFlt.nan := by
    unfold analyze_text_features
    rw [if_neg (by decide)]
    dsimp only
    rw [if_neg (by decide)]
    exact congrArg some hbb
  refine ⟨hm, by rfl, hb, ?_⟩
  rw [hb]
  simp

/-- C5 witness for the amended theorem: the degenerate tokenization above. -/
theorem claim_C5_witness :
    analyze_text_features tokDegen textLong =
      some ((analyze_text_features tokDegen textLong).get (by rfl)) ∧
    npMean (sentLens tokDegen textLong) = QFlt.fin 0 ∧
    ((analyze_text_features tokDegen textLong).get (by rfl)).burstiness = RFlt.nan :=
  ⟨(Option.some_get _).symm,
   by rw [(by decide : sentLens tokDegen textLong = [0])]; simp [npMean, meanQ],
   claim_C5 tokDegen textLong _ (Option.some_get _).symm
     (by rw [(by decide : sentLens tokDegen textLong = [0])]; simp [npMean, meanQ])⟩

/-- C7: records appear in exactly the discovery order with NoResult files
silently omitted and no re-sorting — record production distributes over
concatenation of the discovery sequence — and for files [A, B, C] with A, C
analyzable and B not, the aggregator produces [recordA, recordC]. -/
theorem claim_C7 (tok : Tokenizer) (a b c : SrcFile) (ra rc : DocRecord)
    (ea : eligibleFile a.path = true) (eb : eligibleFile b.path = true)
    (ec : eligibleFile c.path = true)
    (ha : recordOf tok a = some ra) (hb : recordOf tok b = none)
    (hc : recordOf tok c = some rc) :
    (∀ files₁ files₂ : List SrcFile, recordsOf tok (files₁ ++ files₂) =
      recordsOf tok files₁ ++ recordsOf tok files₂) ∧
    recordsOf tok [a, b, c] = [ra, rc] := by
  constructor
  · intro files₁ files₂
    unfold recordsOf
    rw [List.filter_append, List.filterMap_append]
  · unfold recordsOf
    simp [List.filter_cons, ea, eb, ec, List.filterMap_cons, ha, hb, hc]

/-- C7 witness: two analyzable files around an unanalyzably short one. -/
theorem claim_C7_witness :
    eligibleFile fileA.path = true ∧ eligibleFile fileB.path = true ∧
    eligibleFile fileC.path = true ∧
    recordOf tokSimple fileA = some recA ∧ recordOf tokSimple fileB = none ∧
    recordOf tokSimple fileC = some recC ∧
    recordsOf tokSimple ([fileA] ++ [fileB, fileC]) =
      recordsOf tokSimple [fileA] ++ recordsOf tokSimple [fileB, fileC] ∧
    recordsOf tokSimple [fileA, fileB, fileC] = [recA, recC] :=
  ⟨rfl, rfl, rfl, (Option.some_get _).symm, rfl, (Option.some_get _).symm,
   (claim_C7 tokSimple fileA fileB fileC recA recC rfl rfl rfl
     (Option.some_get _).symm rfl (Option.some_get _).symm).1 [fileA] [fileB, fileC],
   (claim_C7 tokSimple fileA fileB fileC recA recC rfl rfl rfl
     (Option.some_get _).symm rfl (Option.some_get _).symm).2⟩

/-- C9: on zero eligible files the aggregator returns the informational
input-empty signal; on files producing zero records, the distinct
content-empty signal; neither is an exception and neither carries records
or a summary. -/
theorem claim_C9 (tok : Tokenizer) (files : List SrcFile) :
    (files.filter (fun f => eligibleFile f.path) = [] →
      analyze_folder tok files = .inputEmpty "找不到 .txt 或 .docx 檔案") ∧
    (files.filter (fun f => eligibleFile f.path) ≠ [] → recordsOf tok files = [] →
      analyze_folder tok files = .contentEmpty "沒有可分析的內容。") ∧
    (∀ msg recs s, FolderResult.inputEmpty msg ≠ FolderResult.report recs s ∧
      FolderResult.contentEmpty msg ≠ FolderResult.report recs s) ∧
    (∀ m1 m2, FolderResult.inputEmpty m1 ≠ FolderResult.contentEmpty m2) := by
  refine ⟨fun h => ?_, fun h1 h2 => ?_,
    fun msg recs s => ⟨by simp, by simp⟩, fun m1 m2 => by simp⟩
  · unfold analyze_folder
    rw [if_pos (by simp [h])]
  · unfold analyze_folder
    rw [if_neg (by simp [h1]), if_pos (by simp [h2])]

/-- C9 witness: a folder with only a `.pdf`, and a folder whose only `.txt`
is too short to analyze. -/
theorem claim_C9_witness :
    [filePdf].filter (fun f => eligibleFile f.path) = [] ∧
    analyze_folder tokSimple [filePdf] = .inputEmpty "找不到 .txt 或 .docx 檔案" ∧
    [fileB].filter (fun f => eligibleFile f.path) ≠ [] ∧
    recordsOf tokSimple [fileB] = [] ∧
    analyze_folder tokSimple [fileB] = .contentEmpty "沒有可分析的內容。" :=
  ⟨by decide, (claim_C9 tokSimple [filePdf]).1 (by decide), by decide, by rfl,
   (claim_C9 tokSimple [fileB]).2.1 (by decide) (by rfl)⟩

/-- C4: for every text passing the preconditions, the computed features
match their reference definitions given the tokenizer's output:
type-token ratio as distinct/total tokens, burstiness as population standard
deviation of sentence lengths over their mean (where that reference is
defined), repetition as the top token multiplicity over the total, and the
perplexity proxy as the population variance of sentence lengths. -/
theorem claim_C4 (tok : Tokenizer) (text : String)
    (_hp : (analyze_text_features tok text).isSome = true) :
    ttrOf (tok.word_tokenize (pyLower text)) =
      refLexicalDiversity (tok.word_tokenize (pyLower text)) ∧
    commonRatioOf (tok.word_tokenize (pyLower text)) =
      (refTopCount (tok.word_tokenize (pyLower text)) : ℚ) /
        ((tok.word_tokenize (pyLower text)).length : ℚ) ∧
    (sentLens tok text ≠ [] →
      npVar (sentLens tok text) = QFlt.fin (refVariance (sentLens tok text))) ∧
    (sentLens tok text ≠ [] → meanQ (sentLens tok text) ≠ 0 →
      burstinessOf (sentLens tok text) =
        RFlt.fin (Real.sqrt (refVariance (sentLens tok text)) /
          (meanQ (sentLens tok text) : ℝ))) := by
  refine ⟨?_, ?_, fun hsl => ?_, fun hsl hm => ?_⟩
  · unfold ttrOf refLexicalDiversity
    rw [list_toFinset_card]
  · unfold commonRatioOf refTopCount mostCommonCount
    rw [foldr_max_eq_sup]
  · unfold npVar
    rw [if_neg hsl, varQ_eq_refVariance _ hsl]
  · unfold burstinessOf
    rw [npStd_eq _ hsl]
    unfold npMean
    rw [if_neg hsl]
    have hmr : ((meanQ (sentLens tok text) : ℚ) : ℝ) ≠ 0 := by exact_mod_cast hm
    simp only [QFlt.toR, RFlt.div]
    rw [if_neg hmr, varQ_eq_refVariance _ hsl]

/-- C4 witness: a tokenizer yielding two sentences of two tokens each on a
50-character text. -/
theorem claim_C4_witness :
    (analyze_text_features tokPair textLong).isSome = true ∧
    sentLens tokPair textLong ≠ [] ∧ meanQ (sentLens tokPair textLong) ≠ 0 ∧
    ttrOf (tokPair.word_tokenize (pyLower textLong)) =
      refLexicalDiversity (tokPair.word_tokenize (pyLower textLong)) ∧
    burstinessOf (sentLens tokPair textLong) =
      RFlt.fin (Real.sqrt (refVariance (sentLens tokPair textLong)) /
        (meanQ (sentLens tokPair textLong) : ℝ)) := by
  have hsl : sentLens tokPair textLong = [2, 2] := by decide
  have hslne : sentLens tokPair textLong ≠ [] := by rw [hsl]; simp
  have hm : meanQ (sentLens tokPair textLong) ≠ 0 := by
    rw [hsl]
    norm_num [meanQ]
  have h := claim_C4 tokPair textLong (by rfl)
  exact ⟨by rfl, hslne, hm, h.1, h.2.2.2 hslne hm⟩

/-- C8: for every non-empty record set (records carry one of the three
category labels, and finite scores), the summary equals: total = record
count, mean = arithmetic mean of `ai_score` rounded to 2 decimals,
max/min = extrema of `ai_score`, and each label count equals the number of
records whose label is identical to that category — in particular the
ambiguous count, which the code computes by substring containment, agrees
with identity matching. -/
theorem claim_C8 (records : List DocRecord) (xs : List ℝ)
    (hne : records ≠ [])
    (hs : records.map (fun r => r.analysis.ai_score) = xs.map RFlt.fin)
    (hl : ∀ r ∈ records, r.analysis.result = "人類撰寫" ∨
      r.analysis.result = "模糊區（混合或修飾過）" ∨
      r.analysis.result = "高機率 AI 生成") :
    (summarize records).total = records.length ∧
    (summarize records).avg = (RFlt.fin (xs.sum / (xs.length : ℝ))).round2 ∧
    (∃ m, (summarize records).high = RFlt.fin m ∧ m ∈ xs ∧ ∀ y ∈ xs, y ≤ m) ∧
    (∃ m, (summarize records).low = RFlt.fin m ∧ m ∈ xs ∧ ∀ y ∈ xs, m ≤ y) ∧
    (summarize records).ai_count =
      (records.filter (fun r => r.analysis.result == "高機率 AI 生成")).length ∧
    (summarize records).fuzzy_count =
      (records.filter (fun r => r.analysis.result == "模糊區（混合或修飾過）")).length ∧
    (summarize records).human_count =
      (records.filter (fun r => r.analysis.result == "人類撰寫")).length := by
  have hxs : (records.map (fun r => r.analysis.ai_score)).filterMap RFlt.toOptR = xs := by
    rw [hs]
    exact filterMap_toOptR_map_fin xs
  have hxne : xs ≠ [] := by
    intro hx
    subst hx
    simp only [List.map_nil, List.map_eq_nil_iff] at hs
    exact hne hs
  cases xs with
  | nil => exact absurd rfl hxne
  | cons x t =>
    unfold summarize
    dsimp only
    refine ⟨rfl, ?_, ?_, ?_, rfl, ?_, rfl⟩
    · unfold pdMean
      rw [hxs]
    · unfold pdMax
      rw [hxs]
      obtain ⟨hmem, hx, hall⟩ := foldl_max_spec t x
      refine ⟨t.foldl max x, rfl, ?_, ?_⟩
      · rcases hmem with h | h
        · rw [h]
          exact List.mem_cons_self x t
        · exact List.mem_cons_of_mem x h
      · intro y hy
        rcases List.mem_cons.mp hy with rfl | hy'
        · exact hx
        · exact hall y hy'
    · unfold pdMin
      rw [hxs]
      obtain ⟨hmem, hx, hall⟩ := foldl_min_spec t x
      refine ⟨t.foldl min x, rfl, ?_, ?_⟩
      · rcases hmem with h | h
        · rw [h]
          exact List.mem_cons_self x t
        · exact List.mem_cons_of_mem x h
      · intro y hy
        rcases List.mem_cons.mp hy with rfl | hy'
        · exact hx
        · exact hall y hy'
    · refine congrArg List.length (List.filter_congr ?_)
      intro r hr
      rcases hl r hr with h | h | h <;> rw [h] <;> decide

/-- C8 witness: three records with scores 10, 50, 90 and one record per
label give total 3 and each label count 1. -/
theorem claim_C8_witness :
    ([recH, recM, recAI] : List DocRecord) ≠ [] ∧
    [recH, recM, recAI].map (fun r => r.analysis.ai_score) =
      ([10, 50, 90] : List ℝ).map RFlt.fin ∧
    (summarize [recH, recM, recAI]).total = 3 ∧
    (summarize [recH, recM, recAI]).human_count = 1 ∧
    (summarize [recH, recM, recAI]).fuzzy_count = 1 ∧
    (summarize [recH, recM, recAI]).ai_count = 1 := by
  have hs : [recH, recM, recAI].map (fun r => r.analysis.ai_score) =
      ([10, 50, 90] : List ℝ).map RFlt.fin := by
    simp [recH, recM, recAI]
  have hl : ∀ r ∈ ([recH, recM, recAI] : List DocRecord),
      r.analysis.result = "人類撰寫" ∨
      r.analysis.result = "模糊區（混合或修飾過）" ∨
      r.analysis.result = "高機率 AI 生成" := by
    intro r hr
    simp only [List.mem_cons, List.not_mem_nil, or_false] at hr
    rcases hr with rfl | rfl | rfl
    · exact Or.inl rfl
    · exact Or.inr (Or.inl rfl)
    · exact Or.inr (Or.inr rfl)
  have h := claim_C8 [recH, recM, recAI] [10, 50, 90] (by simp) hs hl
  exact ⟨by simp, hs, h.1.trans (by rfl), h.2.2.2.2.2.2.trans (by rfl),
    h.2.2.2.2.2.1.trans (by rfl), h.2.2.2.2.1.trans (by rfl)⟩

/-! ## Coherence of the float pipeline with the rational Scorer

On finite inputs the extraction-level float computation is exactly the
rational Scorer of §4.2: the score, rounding and label agree. -/

/-- Addition of finite floats. -/
lemma fin_add (a b : ℝ) : RFlt.fin a + RFlt.fin b = RFlt.fin (a + b) := rfl

/-- Subtraction of finite floats. -/
lemma fin_sub (a b : ℝ) : RFlt.fin a - RFlt.fin b = RFlt.fin (a - b) := rfl

/-- Multiplication of finite floats. -/
lemma fin_mul (a b : ℝ) : RFlt.fin a * RFlt.fin b = RFlt.fin (a * b) := rfl

/-- Round-half-to-even on reals agrees with the rational version on casts. -/
lemma roundHalfEvenR_ratCast (q : ℚ) : roundHalfEvenR (q : ℝ) = roundHalfEven q := by
  unfold roundHalfEvenR roundHalfEven
  have hf : ⌊(q : ℝ)⌋ = ⌊q⌋ := by exact_mod_cast Rat.floor_cast (α := ℝ) q
  have hsub : (q : ℝ) - ((⌊q⌋ : ℤ) : ℝ) = ((q - ⌊q⌋ : ℚ) : ℝ) := by
    push_cast
    ring
  have hhalf : ((1/2 : ℚ) : ℝ) = 1/2 := by norm_num
  rw [hf, hsub, ← hhalf]
  simp only [Rat.cast_lt]

/-- `round(·, 2)` on a finite float with rational value is the rational
two-decimal rounding. -/
lemma RFlt_round2_ratCast (q : ℚ) :
    (RFlt.fin (q : ℝ)).round2 = RFlt.fin ((round2 q : ℚ) : ℝ) := by
  simp only [RFlt.round2]
  unfold round2
  rw [show ((q : ℝ) * 100) = (((q * 100 : ℚ)) : ℝ) by push_cast; ring,
    roundHalfEvenR_ratCast]
  congr 1
  push_cast
  ring

/-- The float label function agrees with the rational one on finite scores. -/
lemma classifyF_ratCast (q : ℚ) : classifyF (RFlt.fin (q : ℝ)) = classify q := by
  simp only [classifyF]
  unfold classify
  by_cases h40 : q < 40
  · rw [if_pos (show ((q : ℝ) < 40) by exact_mod_cast h40), if_pos h40]
  · rw [if_neg (show ¬ ((q : ℝ) < 40) by exact_mod_cast h40), if_neg h40]
    by_cases h70 : q < 70
    · rw [if_pos (show ((q : ℝ) < 70) by exact_mod_cast h70), if_pos h70]
    · rw [if_neg (show ¬ ((q : ℝ) < 70) by exact_mod_cast h70), if_neg h70]

/-- The float composite of the extractor is the rational composite of the
Scorer whenever burstiness and the perplexity proxy are finite. -/
lemma scoreOf_eq_composite (ttr b cr pp : ℚ) :
    scoreOf ttr (RFlt.fin (b : ℝ)) cr (QFlt.fin pp) =
      RFlt.fin ((composite ⟨0, 0, ttr, b, 0, cr, pp⟩ : ℚ) : ℝ) := by
  unfold scoreOf composite
  by_cases h : pp < 100
  · rw [show QFlt.ltB (QFlt.fin pp) 100 = true from by simp [QFlt.ltB, h]]
    simp only [if_true, fin_sub, fin_mul, fin_add]
    rw [if_pos h]
    congr 1
    push_cast
    ring
  · rw [show QFlt.ltB (QFlt.fin pp) 100 = false from by simp [QFlt.ltB, h]]
    simp only [Bool.false_eq_true, if_false, fin_sub, fin_mul, fin_add]
    rw [if_neg h]
    congr 1
    push_cast
    ring

/-- The fields of a successfully extracted record, in terms of the feature
functions. -/
lemma analyze_fields (tok : Tokenizer) (text : String) (fv : Features)
    (h : analyze_text_features tok text = some fv) :
    fv.burstiness = (burstinessOf (sentLens tok text)).round3 ∧
    fv.ai_score = (scoreOf (ttrOf (tok.word_tokenize (pyLower text)))
        (burstinessOf (sentLens tok text))
        (commonRatioOf (tok.word_tokenize (pyLower text)))
        (npVar (sentLens tok text)) * RFlt.fin 100).round2 ∧
    fv.result = classifyF fv.ai_score := by
  unfold analyze_text_features at h
  by_cases h1 : text = "" ∨ (pyStrip text).length < 50
  · rw [if_pos h1] at h
    exact absurd h (by simp)
  · rw [if_neg h1] at h
    dsimp only at h
    by_cases h2 : tok.word_tokenize (pyLower text) = []
    · rw [if_pos h2] at h
      exact absurd h (by simp)
    · rw [if_neg h2] at h
      have hfv := (Option.some.injEq _ _).mp h.symm
      subst hfv
      exact ⟨rfl, rfl, rfl⟩

/-- On an input whose sentence-length list is nonempty and whose burstiness
is finite, the record's score and label are exactly the Scorer's
`aiScore` and `classify` of the corresponding FeatureVector. -/
lemma analyze_consistent_scorer (tok : Tokenizer) (text : String) (fv : Features)
    (b : ℚ) (h : analyze_text_features tok text = some fv)
    (hb : burstinessOf (sentLens tok text) = RFlt.fin (b : ℝ))
    (hsl : sentLens tok text ≠ []) :
    fv.ai_score = RFlt.fin ((aiScore ⟨text.length, (tok.sent_tokenize text).length,
        ttrOf (tok.word_tokenize (pyLower text)), b, tok.flesch_reading_ease text,
        commonRatioOf (tok.word_tokenize (pyLower text)),
        varQ (sentLens tok text)⟩ : ℚ) : ℝ) ∧
    fv.result = classify (aiScore ⟨text.length, (tok.sent_tokenize text).length,
        ttrOf (tok.word_tokenize (pyLower text)), b, tok.flesch_reading_ease text,
        commonRatioOf (tok.word_tokenize (pyLower text)),
        varQ (sentLens tok text)⟩) := by
  obtain ⟨-, hsc, hres⟩ := analyze_fields tok text fv h
  have hvar : npVar (sentLens tok text) = QFlt.fin (varQ (sentLens tok text)) := by
    unfold npVar
    rw [if_neg hsl]
  have hsc' : fv.ai_score = RFlt.fin ((aiScore ⟨text.length,
      (tok.sent_tokenize text).length, ttrOf (tok.word_tokenize (pyLower text)), b,
      tok.flesch_reading_ease text, commonRatioOf (tok.word_tokenize (pyLower text)),
      varQ (sentLens tok text)⟩ : ℚ) : ℝ) := by
    rw [hsc, hb, hvar, scoreOf_eq_composite, fin_mul]
    rw [show ((composite ⟨0, 0, ttrOf (tok.word_tokenize (pyLower text)), b, 0,
        commonRatioOf (tok.word_tokenize (pyLower text)),
        varQ (sentLens tok text)⟩ : ℚ) : ℝ) * 100 =
      ((composite ⟨0, 0, ttrOf (tok.word_tokenize (pyLower text)), b, 0,
        commonRatioOf (tok.word_tokenize (pyLower text)),
        varQ (sentLens tok text)⟩ * 100 : ℚ) : ℝ) by push_cast; ring]
    rw [RFlt_round2_ratCast]
    rfl
  refine ⟨hsc', ?_⟩
  rw [hres, hsc', classifyF_ratCast]

end AIDetect
